import Mathlib

/-!
Verification development for the cdx-imbalance-data repository.

The embedding below translates, from the Python source:
  * `economic_conversions.normalize_dtcc_quote`  (economic_conversions.py, lines 84-137)
  * `economic_conversions.convert_spread_to_price` (economic_conversions.py, lines 13-48)
  * `trade_classifier.classify_trades`           (trade_classifier.py, lines 15-148)
  * `dtcc_fetcher.preprocess_dtcc_trades`        (dtcc_fetcher.py, lines 176-293)
  * the constant `config.LATENCY_FILTER_SECONDS` (config.py, line 43)

Modelling conventions:
  * Python floats are modelled by `PyFloat`: NaN, plus and minus infinity, and
    finite values as rationals.  IEEE comparisons with NaN are all false,
    which the definition of `PyFloat.lt` reflects.
  * Timestamps are integers (seconds); `pandas.Timedelta` arithmetic in the
    source becomes integer arithmetic.
  * A raw text field (the result of `str(row.get(...)).strip()` in
    `normalize_dtcc_quote`) is modelled by `RawField`, which records the
    classes of strings that matter to `float(...)`: the empty string, the
    string "None" (what `str(None)` yields for a missing Python value), a
    finite numeral, the strings "nan" / "inf" / "-inf" (all accepted by
    Python `float`), and any other non-numeric text (raises `ValueError`).
-/

/-- Python float value: NaN, infinities, or a finite value (as a rational). -/
inductive PyFloat
  | nan
  | pinf
  | ninf
  | fin (q : ℚ)
deriving DecidableEq

/-- Model of `pd.isna` on a scalar float: true exactly on NaN. -/
def PyFloat.isna : PyFloat → Bool
  | .nan => true
  | _ => false

/-- IEEE `<` on Python floats: any comparison involving NaN is false;
minus infinity is below every non-NaN value, plus infinity above. -/
def PyFloat.lt : PyFloat → PyFloat → Bool
  | .nan, _ => false
  | _, .nan => false
  | .ninf, .ninf => false
  | .ninf, _ => true
  | _, .ninf => false
  | .pinf, _ => false
  | .fin _, .pinf => true
  | .fin a, .fin b => decide (a < b)

/-- Raw text content of a quote field after `str(...)` and `.strip()`:
the classes of strings distinguished by the source's use of `float(...)`. -/
inductive RawField
  | empty
  | noneStr
  | num (q : ℚ)
  | nanStr
  | infStr
  | ninfStr
  | junk (s : String)
deriving DecidableEq

/-- Model of the guard `pd.notna(s) and s != ""` on the stripped string
(a Python string is never `NaN`, so only emptiness matters). -/
def RawField.nonEmpty : RawField → Bool
  | .empty => false
  | _ => true

/-- Model of `float(s)` on the stripped string: `some` when the call
succeeds (Python `float` also accepts "nan", "inf" and "-inf"),
`none` when it raises `ValueError` ("None" and other non-numeric text). -/
def RawField.tryFloat : RawField → Option PyFloat
  | .num q => some (.fin q)
  | .nanStr => some .nan
  | .infStr => some .pinf
  | .ninfStr => some .ninf
  | _ => none

/-- Upper-casing of a notation string, modelling Python `str.upper()`
(defined over the character list so that proofs can evaluate it). -/
def strUpper (s : String) : String := String.mk (s.data.map Char.toUpper)

/-- Quote basis tag as returned by `normalize_dtcc_quote`. -/
inductive QuoteBasis
  | price
  | spread
deriving DecidableEq

/-- One row of the preprocessed DTCC trades DataFrame, restricted to the
fields `classify_trades` and `normalize_dtcc_quote` read.  The fields
`price_unit` / `spread_unit` carry the source columns `price_notation` /
`spread_notation` (renamed; Lean-side naming constraint). -/
structure TradeRow where
  execution_timestamp_utc : ℤ
  price_value : RawField
  price_unit : String
  spread_value : RawField
  spread_unit : String
deriving DecidableEq

/-- One row of the Bloomberg mids DataFrame consumed by `classify_trades`. -/
structure MidPoint where
  timestamp_utc : ℤ
  mid_price : PyFloat
deriving DecidableEq

/-- Configured latency tolerance, `config.LATENCY_FILTER_SECONDS` (30). -/
def LATENCY_FILTER_SECONDS : ℤ := 30

/-- Translation of `economic_conversions.normalize_dtcc_quote`
(economic_conversions.py lines 84-137): try `spread_value` first; on a
parse failure or an empty field fall through to `price_value`; if neither
yields a value return `(None, NaN, None)`.  The third component is the
notation string upper-cased, set only on the successful branch. -/
def normalize_dtcc_quote (row : TradeRow) :
    Option QuoteBasis × PyFloat × Option String :=
  match (if row.spread_value.nonEmpty then row.spread_value.tryFloat else none) with
  | some v => (some .spread, v, some (strUpper row.spread_unit))
  | none =>
    match (if row.price_value.nonEmpty then row.price_value.tryFloat else none) with
    | some v => (some .price, v, some (strUpper row.price_unit))
    | none => (none, .nan, none)

/-- Translation of `economic_conversions.convert_spread_to_price`
(economic_conversions.py lines 13-48): returns `None` when the argument is
`None`, otherwise `np.nan` (an explicit placeholder in the source). -/
def convert_spread_to_price (spread_bps : Option PyFloat) : Option PyFloat :=
  match spread_bps with
  | none => none
  | some _ => some .nan

/-- Model of `pd.isna` on the value returned by `convert_spread_to_price`:
true on `None` and on NaN. -/
def optIsna : Option PyFloat → Bool
  | none => true
  | some v => v.isna

/-- The rows of the Bloomberg frame whose (index) timestamp lies in the
closed window `[trade_ts - tol, trade_ts + tol]` (trade_classifier.py
lines 64-75; both bounds inclusive). -/
def relevantWindow (sorted : List MidPoint) (trade_ts : ℤ) : List MidPoint :=
  sorted.filter (fun p =>
    decide (trade_ts - LATENCY_FILTER_SECONDS ≤ p.timestamp_utc) &&
    decide (p.timestamp_utc ≤ trade_ts + LATENCY_FILTER_SECONDS))

/-- The first row attaining the minimal `|timestamp - trade_ts|`, as
`Series.idxmin` does on a frame already sorted by timestamp
(trade_classifier.py lines 89-90): ties keep the earlier row. -/
def firstMinPoint (trade_ts : ℤ) : List MidPoint → Option MidPoint
  | [] => none
  | p :: ps =>
    match firstMinPoint trade_ts ps with
    | none => some p
    | some q =>
      if |p.timestamp_utc - trade_ts| ≤ |q.timestamp_utc - trade_ts| then some p
      else some q

/-- Model of `relevant.loc[relevant["time_diff"].idxmin()]`
(trade_classifier.py line 90): `.loc` with an index label returns every
row carrying that label, so the result is the list of window rows whose
timestamp equals the timestamp of the first minimal-distance row. -/
def locClosest (relevant : List MidPoint) (trade_ts : ℤ) : List MidPoint :=
  match firstMinPoint trade_ts relevant with
  | none => []
  | some p => relevant.filter (fun q => decide (q.timestamp_utc = p.timestamp_utc))

/-- The body of the per-trade loop of `classify_trades`
(trade_classifier.py lines 50-145), for one trade row against the sorted
Bloomberg frame.  `Except.error` models an exception escaping the loop:
when `.loc[idxmin]` returns more than one row (duplicated index label),
`closest_mid_row["mid_price"]` is a Series and the truth test
`if pd.isna(bberg_mid_spread):` on line 94 raises `ValueError` — this is
outside the `try` block that starts at line 100, so it propagates. -/
def classifyOne (sorted : List MidPoint) (row : TradeRow) : Except String String :=
  match normalize_dtcc_quote row with
  | (dtcc_quote_basis, dtcc_quote_value, _) =>
    if dtcc_quote_basis.isNone || dtcc_quote_value.isna then
      .ok "unclassifiable_bad_dtcc_quote"
    else if (relevantWindow sorted row.execution_timestamp_utc).isEmpty then
      .ok "unclassifiable_stale_mid"
    else
      match locClosest (relevantWindow sorted row.execution_timestamp_utc)
          row.execution_timestamp_utc with
      | [closest] =>
        if closest.mid_price.isna then .ok "unclassifiable_nan_bberg_mid"
        else
          match dtcc_quote_basis with
          | some .spread =>
            if PyFloat.lt dtcc_quote_value closest.mid_price then .ok "bid_side"
            else if PyFloat.lt closest.mid_price dtcc_quote_value then .ok "offer_side"
            else .ok "mid_market"
          | some .price =>
            if optIsna (convert_spread_to_price (some closest.mid_price)) then
              .ok "unclassifiable_conversion_failed"
            else
              match convert_spread_to_price (some closest.mid_price) with
              | some c =>
                if PyFloat.lt dtcc_quote_value c then .ok "bid_side"
                else if PyFloat.lt c dtcc_quote_value then .ok "offer_side"
                else .ok "mid_market"
              | none => .ok "unclassifiable_conversion_failed"
          | none => .ok "unclassifiable_unknown_basis"
      | _ => .error "ambiguous truth value of a Series"

/-- The per-trade loop of `classify_trades`: an exception raised for one
trade aborts the whole call. -/
def classifyLoop (sorted : List MidPoint) : List TradeRow → Except String (List String)
  | [] => .ok []
  | r :: rs =>
    match classifyOne sorted r with
    | .error e => .error e
    | .ok l =>
      match classifyLoop sorted rs with
      | .error e => .error e
      | .ok ls => .ok (l :: ls)

/-- Stable ascending sort of the Bloomberg frame by timestamp
(`sort_values(by="timestamp_utc")`, trade_classifier.py lines 44-46). -/
def sortByTs (l : List MidPoint) : List MidPoint :=
  List.insertionSort (fun a b => a.timestamp_utc ≤ b.timestamp_utc) l

/-- Translation of `trade_classifier.classify_trades` (lines 15-148),
returning the `trade_classification` column: an empty trades frame is
returned untouched (no column is added — modelled as the empty column);
an empty Bloomberg frame labels every trade `unclassifiable_no_mid`;
otherwise each row is classified by the loop body.  `Except.error` models
an uncaught exception escaping `classify_trades`. -/
def classify_trades (dtcc_trades : List TradeRow) (bloomberg_mids : List MidPoint) :
    Except String (List String) :=
  if dtcc_trades.isEmpty then .ok []
  else if bloomberg_mids.isEmpty then
    .ok (dtcc_trades.map (fun _ => "unclassifiable_no_mid"))
  else
    classifyLoop (sortByTs bloomberg_mids) dtcc_trades

/-- One cell of a raw or preprocessed DTCC DataFrame.  CSV text that parses
as a timestamp is modelled as `tim`, text that parses as a number as `num`,
other text as `str`, and a missing value (pandas NaN/NaT) as `na` — the
actual ISO-timestamp and decimal parsers are outside the scope of the
embedding, so parseability is recorded in the constructor. -/
inductive Cell
  | na
  | str (s : String)
  | tim (t : ℤ)
  | num (v : ℚ)
deriving DecidableEq

/-- Test for a missing value, as `pd.isna` / `dropna` see a cell. -/
def Cell.isNa : Cell → Bool
  | .na => true
  | _ => false

/-- A pandas DataFrame: a list of column names and a list of rows, each row
aligned positionally with the columns. -/
structure DFrame where
  cols : List String
  rows : List (List Cell)
deriving DecidableEq

/-- Python `str.capitalize()`: first character upper-cased, the rest
lower-cased. -/
def strCapitalize (w : String) : String :=
  match w.data with
  | [] => ""
  | c :: cs => String.mk (Char.toUpper c :: cs.map Char.toLower)

/-- First rename of `preprocess_dtcc_trades` (dtcc_fetcher.py line 188):
`col.replace(" ", "_").upper()`. -/
def upperSnake (c : String) : String :=
  strUpper (String.mk (c.data.map (fun ch => if ch = ' ' then '_' else ch)))

/-- Splitting a character list at underscores, for the second rename. -/
def splitUnderscoreAux (acc : List Char) : List Char → List (List Char)
  | [] => [acc.reverse]
  | c :: cs =>
    if c = '_' then acc.reverse :: splitUnderscoreAux [] cs
    else splitUnderscoreAux (c :: acc) cs

/-- Joining words with single spaces, modelling `" ".join(...)`. -/
def joinSpace : List String → String
  | [] => ""
  | [w] => w
  | w :: ws => w ++ " " ++ joinSpace ws

/-- Second rename of `preprocess_dtcc_trades` (dtcc_fetcher.py line 200):
`" ".join(word.capitalize() for word in col.split("_"))`. -/
def titleCase (c : String) : String :=
  joinSpace ((splitUnderscoreAux [] c.data).map (fun w => strCapitalize (String.mk w)))

/-- Net effect of the two successive column renames (lines 188-201). -/
def renameStage (cols : List String) : List String :=
  (cols.map upperSnake).map titleCase

/-- Index of a column name in the column list. -/
def colIdx (cols : List String) (c : String) : Option ℕ :=
  cols.findIdx? (fun x => decide (x = c))

/-- Positional cell access with the pandas missing value as default. -/
def getCell (row : List Cell) (i : ℕ) : Cell := row.getD i .na

/-- Cell of a row under a column name. -/
def getColCell (cols : List String) (row : List Cell) (c : String) : Cell :=
  match colIdx cols c with
  | none => .na
  | some i => getCell row i

/-- Pointwise update of the cell at one position of a row. -/
def updateCol (i : ℕ) (f : Cell → Cell) : List Cell → List Cell
  | [] => []
  | x :: xs =>
    match i with
    | 0 => f x :: xs
    | n + 1 => x :: updateCol n f xs

/-- Update of one named column over all rows of a frame. -/
def mapColDF (df : DFrame) (c : String) (f : Cell → Cell) : DFrame :=
  match colIdx df.cols c with
  | none => df
  | some i => ⟨df.cols, df.rows.map (updateCol i f)⟩

/-- Model of `pd.to_datetime(col, errors="coerce")` on a cell: a parseable
timestamp survives, anything else becomes NaT. -/
def toDatetimeCoerce : Cell → Cell
  | .tim t => .tim t
  | _ => .na

/-- Model of `pd.to_numeric(col, errors="coerce")` on a cell. -/
def toNumericCoerce : Cell → Cell
  | .num v => .num v
  | _ => .na

/-- The `* 10000` spread conversion (dtcc_fetcher.py line 289); NaN stays
NaN. -/
def timesTenThousand : Cell → Cell
  | .num v => .num (v * 10000)
  | c => c

/-- Timestamp conversion stage (dtcc_fetcher.py lines 217-221): coerce the
"Execution Timestamp" column and drop the rows where it failed to parse. -/
def stageTimestamp (df : DFrame) : DFrame :=
  match colIdx df.cols "Execution Timestamp" with
  | none => df
  | some i =>
    ⟨df.cols,
      (df.rows.map (updateCol i toDatetimeCoerce)).filter
        (fun r => !(getCell r i).isNa)⟩

/-- A total comparison on cells, used only by the amendment branch's sort
(dead code for every real input, see `stageAmend`): constructor tag first,
then the payload order. -/
def cellLe (a b : Cell) : Bool :=
  match a, b with
  | .na, _ => true
  | .str _, .na => false
  | .str s, .str t => decide (s ≤ t)
  | .str _, _ => true
  | .tim _, .na => false
  | .tim _, .str _ => false
  | .tim s, .tim t => decide (s ≤ t)
  | .tim _, _ => true
  | .num s, .num t => decide (s ≤ t)
  | .num _, _ => false

/-- Sort key of the amendment branch (dtcc_fetcher.py line 234):
by "Original Dissemination ID", then "Execution Timestamp", ascending. -/
def rowKeyLe (cols : List String) (r1 r2 : List Cell) : Bool :=
  if getColCell cols r1 "Original Dissemination ID" =
      getColCell cols r2 "Original Dissemination ID" then
    cellLe (getColCell cols r1 "Execution Timestamp")
      (getColCell cols r2 "Execution Timestamp")
  else
    cellLe (getColCell cols r1 "Original Dissemination ID")
      (getColCell cols r2 "Original Dissemination ID")

/-- Guard of dtcc_fetcher.py line 239: the chain's terminal row is kept
unless its "Action Type" cell is the string CANCEL or ERROR. -/
def keepRow (cols : List String) (r : List Cell) : Bool :=
  !(getColCell cols r "Action Type" = Cell.str "CANCEL" ||
    getColCell cols r "Action Type" = Cell.str "ERROR")

/-- Last row of each adjacent run of equal "Original Dissemination ID"
keys (rows already sorted by key), kept subject to `keepRow` — the
`groupby(...).iloc[-1]` loop of dtcc_fetcher.py lines 237-240. -/
def groupLastAux (cols : List String) (cur : List Cell) :
    List (List Cell) → List (List Cell)
  | [] => if keepRow cols cur then [cur] else []
  | r :: rs =>
    if getColCell cols r "Original Dissemination ID" =
        getColCell cols cur "Original Dissemination ID" then
      groupLastAux cols r rs
    else
      (if keepRow cols cur then [cur] else []) ++ groupLastAux cols r rs

/-- Amendment-resolution stage (dtcc_fetcher.py lines 231-248).  The guard
tests for a column literally named "Original Dissemination ID"; the rename
pipeline title-cases every column with `capitalize()`, which can only
produce "Id" / "Identifier" as trailing words, so for every real input the
guard is false and the branch is skipped with a warning. -/
def stageAmend (df : DFrame) : DFrame :=
  if "Original Dissemination ID" ∈ df.cols ∧ "Execution Timestamp" ∈ df.cols ∧
      "Action Type" ∈ df.cols then
    match List.insertionSort (fun r1 r2 => rowKeyLe df.cols r1 r2 = true) df.rows with
    | [] => ⟨[], []⟩
    | r :: rs =>
      match groupLastAux df.cols r rs with
      | [] => ⟨[], []⟩
      | finals => ⟨df.cols, finals⟩
  else df

/-- The source-ordered `column_map_to_final` dictionary
(dtcc_fetcher.py lines 253-264). -/
def column_map_to_final : List (String × String) :=
  [("Execution Timestamp", "execution_timestamp_utc"),
   ("Dissemination Identifier", "dissemination_id"),
   ("Original Dissemination Identifier", "original_dissemination_id"),
   ("Product Name", "product_name"),
   ("Price", "price_value"),
   ("Price Notation", "price_notation"),
   ("Spread-leg 1", "spread_value"),
   ("Spread Notation-leg 1", "spread_notation"),
   ("Notional Amount-leg 1", "notional_amount"),
   ("Notional Amount Currency-leg 1", "notional_currency"),
   ("Action Type", "action_type"),
   ("Event Type", "event_type"),
   ("Unique Product Identifier", "unique_product_identifier")]

/-- Final name a selected column is renamed to. -/
def mapDst (c : String) : String :=
  match column_map_to_final.find? (fun p => decide (p.1 = c)) with
  | some p => p.2
  | none => c

/-- Column selection and final rename (dtcc_fetcher.py lines 274-282):
keep the dictionary keys present in the frame, in dictionary order. -/
def stageSelect (df : DFrame) : DFrame :=
  ⟨((column_map_to_final.map Prod.fst).filter
      (fun c => decide (c ∈ df.cols))).map mapDst,
   df.rows.map (fun r =>
     ((column_map_to_final.map Prod.fst).filter
        (fun c => decide (c ∈ df.cols))).map (getColCell df.cols r))⟩

/-- Numeric conversions (dtcc_fetcher.py lines 284-290): coerce
`notional_amount`, coerce `spread_value` and scale it by 10000. -/
def stageNumeric (df : DFrame) : DFrame :=
  mapColDF (mapColDF (mapColDF df "notional_amount" toNumericCoerce)
    "spread_value" toNumericCoerce) "spread_value" timesTenThousand

/-- Translation of `dtcc_fetcher.preprocess_dtcc_trades` (lines 176-293):
empty input short-circuits to an empty frame; otherwise the column
renames, the timestamp coercion, the (guard-protected) amendment stage,
the column selection and the numeric conversions are applied in source
order.  (The source's early `return pd.DataFrame()` when the amendment
stage leaves nothing is equivalent to running the remaining stages on the
empty frame, which they leave empty.) -/
def preprocess_dtcc_trades (df : DFrame) : DFrame :=
  if df.rows.isEmpty || df.cols.isEmpty then ⟨[], []⟩
  else
    stageNumeric (stageSelect (stageAmend (stageTimestamp
      ⟨renameStage df.cols, df.rows⟩)))

/-- The raw column names of a DTCC EOD/slice file as the source's
`required_cols` expects them (dtcc_fetcher.py lines 205-209). -/
def stdRawCols : List String :=
  ["Dissemination Identifier", "Original Dissemination Identifier",
   "Action Type", "Event Type", "Execution Timestamp", "Price",
   "Price Notation", "Spread-Leg 1", "Spread Notation-Leg 1",
   "Notional Amount-Leg 1", "Notional Amount Currency-Leg 1",
   "Product Name", "Unique Product Identifier"]

/-- The column names `preprocess_dtcc_trades` produces from `stdRawCols`. -/
def snakeCols : List String :=
  ["execution_timestamp_utc", "dissemination_id", "original_dissemination_id",
   "product_name", "price_value", "price_notation", "spread_value",
   "spread_notation", "notional_amount", "notional_currency", "action_type",
   "event_type", "unique_product_identifier"]

/-- The only columns that survive a second application of
`preprocess_dtcc_trades` to its own output. -/
def survivorCols : List String :=
  ["product_name", "price_notation", "action_type", "event_type",
   "unique_product_identifier"]

/-- Concrete failing input for the cancellation-exclusion claim: two
reports sharing Original Dissemination Identifier ORIG1, a NEW at time 100
and a terminal CANCEL at time 200 (row cells aligned with `stdRawCols`). -/
def dfCancelChain : DFrame :=
  ⟨stdRawCols,
   [[Cell.str "D1", Cell.str "ORIG1", Cell.str "NEW", Cell.str "TRADE",
     Cell.tim 100, Cell.na, Cell.na, Cell.num 7, Cell.str "BPS",
     Cell.num 1000000, Cell.str "USD", Cell.str "CDX.NA.IG.S40.5Y",
     Cell.str "QZ0PH5HG4P9T"],
    [Cell.str "D2", Cell.str "ORIG1", Cell.str "CANCEL", Cell.str "TRADE",
     Cell.tim 200, Cell.na, Cell.na, Cell.num 7, Cell.str "BPS",
     Cell.num 1000000, Cell.str "USD", Cell.str "CDX.NA.IG.S40.5Y",
     Cell.str "QZ0PH5HG4P9T"]]⟩

/-- Concrete already-resolved frame for the idempotence claim: the output
of a first application on a single NEW report. -/
def dfResolvedOnce : DFrame :=
  preprocess_dtcc_trades
    ⟨stdRawCols,
     [[Cell.str "D9", Cell.str "ORIG9", Cell.str "NEW", Cell.str "TRADE",
       Cell.tim 300, Cell.na, Cell.na, Cell.num 7, Cell.str "BPS",
       Cell.num 5000000, Cell.str "USD", Cell.str "CDX.NA.IG.S40.5Y",
       Cell.str "QZ0PH5HG4P9T"]]⟩

/-- The labels the classification loop can produce.  Every entry is either
one of the three definitive labels or carries an `unclassifiable_` reason
(the source's `bid_side` / `offer_side` are the spec's `sell` / `buy`:
spread below the mid is the bid side, above it the offer side). -/
def allowedLabels : List String :=
  ["bid_side", "offer_side", "mid_market",
   "unclassifiable_bad_dtcc_quote", "unclassifiable_no_mid",
   "unclassifiable_stale_mid", "unclassifiable_nan_bberg_mid",
   "unclassifiable_conversion_failed", "unclassifiable_unknown_basis"]

theorem classifyOne_ok_mem (s : List MidPoint) (r : TradeRow) (l : String)
    (h : classifyOne s r = .ok l) : l ∈ allowedLabels := by
  unfold classifyOne at h
  repeat' split at h
  all_goals simp_all [allowedLabels]

theorem firstMinPoint_spec (t : ℤ) (l : List MidPoint) (h : l ≠ []) :
    ∃ p, firstMinPoint t l = some p ∧ p ∈ l ∧
      ∀ q ∈ l, |p.timestamp_utc - t| ≤ |q.timestamp_utc - t| := by
  induction l with
  | nil => exact absurd rfl h
  | cons a as ih =>
    cases as with
    | nil =>
      refine ⟨a, by simp [firstMinPoint], by simp, ?_⟩
      intro q hq
      simp at hq
      simp [hq]
    | cons b bs =>
      obtain ⟨p, hp, hmem, hmin⟩ := ih (by simp)
      by_cases hle : |a.timestamp_utc - t| ≤ |p.timestamp_utc - t|
      · refine ⟨a, ?_, by simp, ?_⟩
        · simp [firstMinPoint] at hp ⊢
          rw [hp]
          simp [hle]
        · intro q hq
          rcases List.mem_cons.mp hq with rfl | hq
          · exact le_refl _
          · exact le_trans hle (hmin q hq)
      · refine ⟨p, ?_, List.mem_cons_of_mem _ hmem, ?_⟩
        · simp [firstMinPoint] at hp ⊢
          rw [hp]
          simp [hle]
        · intro q hq
          rcases List.mem_cons.mp hq with rfl | hq
          · exact le_of_lt (lt_of_not_le hle)
          · exact hmin q hq

theorem filter_ts_eq_singleton (l : List MidPoint) (p : MidPoint)
    (hnd : (l.map MidPoint.timestamp_utc).Nodup) (hp : p ∈ l) :
    l.filter (fun q => decide (q.timestamp_utc = p.timestamp_utc)) = [p] := by
  induction l with
  | nil => simp at hp
  | cons a as ih =>
    simp only [List.map_cons, List.nodup_cons] at hnd
    rcases List.mem_cons.mp hp with rfl | hmem
    · have htail : as.filter (fun q => decide (q.timestamp_utc = p.timestamp_utc)) = [] := by
        refine List.filter_eq_nil.mpr ?_
        intro q hq
        simp only [decide_eq_true_eq]
        intro hqe
        exact hnd.1 (hqe ▸ List.mem_map_of_mem MidPoint.timestamp_utc hq)
      simp [List.filter_cons, htail]
    · have hne : a.timestamp_utc ≠ p.timestamp_utc := by
        intro he
        exact hnd.1 (he ▸ List.mem_map_of_mem MidPoint.timestamp_utc hmem)
      simp [List.filter_cons, hne, ih hnd.2 hmem]

theorem locClosest_uniq (relevant : List MidPoint) (t : ℤ)
    (hnd : (relevant.map MidPoint.timestamp_utc).Nodup) (h : relevant ≠ []) :
    ∃ p, locClosest relevant t = [p] ∧ p ∈ relevant ∧
      ∀ q ∈ relevant, |p.timestamp_utc - t| ≤ |q.timestamp_utc - t| := by
  obtain ⟨p, hp, hmem, hmin⟩ := firstMinPoint_spec t relevant h
  exact ⟨p, by simp [locClosest, hp, filter_ts_eq_singleton relevant p hnd hmem],
    hmem, hmin⟩

theorem relevantWindow_nodup (sorted : List MidPoint) (t : ℤ)
    (hnd : (sorted.map MidPoint.timestamp_utc).Nodup) :
    ((relevantWindow sorted t).map MidPoint.timestamp_utc).Nodup :=
  hnd.sublist ((List.filter_sublist sorted).map MidPoint.timestamp_utc)

theorem sortByTs_nodup (l : List MidPoint)
    (hnd : (l.map MidPoint.timestamp_utc).Nodup) :
    ((sortByTs l).map MidPoint.timestamp_utc).Nodup :=
  (((List.perm_insertionSort _ l).map MidPoint.timestamp_utc).nodup_iff).mpr hnd

theorem classifyOne_isOk (sorted : List MidPoint) (r : TradeRow)
    (hnd : (sorted.map MidPoint.timestamp_utc).Nodup) :
    ∃ l, classifyOne sorted r = .ok l ∧ l ∈ allowedLabels := by
  have hsplit :
      (∃ l, classifyOne sorted r = .ok l) → ∃ l, classifyOne sorted r = .ok l ∧ l ∈ allowedLabels := by
    rintro ⟨l, hl⟩
    exact ⟨l, hl, classifyOne_ok_mem sorted r l hl⟩
  apply hsplit
  unfold classifyOne
  by_cases hrel : (relevantWindow sorted r.execution_timestamp_utc).isEmpty
  · repeat' split
    all_goals simp_all
  · have hne : relevantWindow sorted r.execution_timestamp_utc ≠ [] := by
      simpa [List.isEmpty_iff] using hrel
    obtain ⟨p, hp, -, -⟩ :=
      locClosest_uniq (relevantWindow sorted r.execution_timestamp_utc)
        r.execution_timestamp_utc (relevantWindow_nodup sorted _ hnd) hne
    rw [hp]
    repeat' split
    all_goals simp_all

theorem classifyLoop_ok (sorted : List MidPoint) (trades : List TradeRow)
    (hnd : (sorted.map MidPoint.timestamp_utc).Nodup) :
    ∃ ls, classifyLoop sorted trades = .ok ls ∧ ls.length = trades.length ∧
      ∀ l ∈ ls, l ∈ allowedLabels := by
  induction trades with
  | nil => exact ⟨[], rfl, rfl, by simp⟩
  | cons r rs ih =>
    obtain ⟨l, hl, hmem⟩ := classifyOne_isOk sorted r hnd
    obtain ⟨ls, hls, hlen, hall⟩ := ih
    refine ⟨l :: ls, by simp [classifyLoop, hl, hls], by simp [hlen], ?_⟩
    intro x hx
    rcases List.mem_cons.mp hx with rfl | hx
    · exact hmem
    · exact hall x hx

theorem classifyLoop_ok_mem (sorted : List MidPoint) (trades : List TradeRow)
    (ls : List String) (h : classifyLoop sorted trades = .ok ls) :
    ∀ l ∈ ls, l ∈ allowedLabels := by
  induction trades generalizing ls with
  | nil =>
    unfold classifyLoop at h
    simp only [Except.ok.injEq] at h
    subst h
    simp
  | cons r rs ih =>
    unfold classifyLoop at h
    rcases h1 : classifyOne sorted r with e | l1 <;> rw [h1] at h
    · simp at h
    · rcases h2 : classifyLoop sorted rs with e | ls1 <;> rw [h2] at h
      · simp at h
      · simp only [Except.ok.injEq] at h
        subst h
        intro x hx
        rcases List.mem_cons.mp hx with rfl | hx
        · exact classifyOne_ok_mem sorted r x h1
        · exact ih ls1 h2 x hx

theorem PyFloat.lt_asymm (a b : PyFloat) (h : PyFloat.lt a b = true) :
    PyFloat.lt b a = false := by
  cases a <;> cases b <;> simp_all [PyFloat.lt] <;> linarith

/-- C1 (amended): provided the reference series carries pairwise-distinct
timestamps (so the `.loc[idxmin]` selection is a single row), every trade
row receives exactly one label from the closed set `allowedLabels`
(`bid_side` / `offer_side` / `mid_market` plus the `unclassifiable_*`
reasons — the spec's `sell` / `buy` / `mid_market` under its naming), the
function returns normally, and when the spread-basis quote is strictly
greater than the selected reference mid the label is `offer_side` (the
spec's `buy`), when strictly less `bid_side` (the spec's `sell`). -/
theorem classify_trades_totality_and_direction
    (trades : List TradeRow) (bberg : List MidPoint)
    (hnd : (bberg.map MidPoint.timestamp_utc).Nodup) :
    (∃ ls, classify_trades trades bberg = .ok ls ∧ ls.length = trades.length ∧
      ∀ l ∈ ls, l ∈ allowedLabels) ∧
    (∀ (r : TradeRow) (p : MidPoint) (nt : Option String) (v : PyFloat),
      normalize_dtcc_quote r = (some .spread, v, nt) → v.isna = false →
      locClosest (relevantWindow (sortByTs bberg) r.execution_timestamp_utc)
        r.execution_timestamp_utc = [p] →
      p.mid_price.isna = false →
      (PyFloat.lt p.mid_price v = true →
        classifyOne (sortByTs bberg) r = .ok "offer_side") ∧
      (PyFloat.lt v p.mid_price = true →
        classifyOne (sortByTs bberg) r = .ok "bid_side")) := by
  constructor
  · by_cases ht : trades.isEmpty
    · refine ⟨[], ?_, ?_, by simp⟩
      · simp [classify_trades, ht]
      · rw [List.isEmpty_iff.mp ht]
        rfl
    · by_cases hb : bberg.isEmpty
      · refine ⟨trades.map (fun _ => "unclassifiable_no_mid"), ?_, by simp, ?_⟩
        · simp [classify_trades, ht, hb]
        · intro l hl
          rcases List.mem_map.mp hl with ⟨r, -, rfl⟩
          simp [allowedLabels]
      · obtain ⟨ls, h1, h2, h3⟩ := classifyLoop_ok (sortByTs bberg) trades (sortByTs_nodup bberg hnd)
        exact ⟨ls, by simp [classify_trades, ht, hb, h1], h2, h3⟩
  · intro r p nt v hn hv hloc hm
    have hrelne : ¬(relevantWindow (sortByTs bberg) r.execution_timestamp_utc).isEmpty := by
      intro h0
      rw [List.isEmpty_iff.mp h0] at hloc
      simp [locClosest, firstMinPoint] at hloc
    constructor
    · intro hgt
      unfold classifyOne
      rw [hn]
      simp [hv, hrelne, hloc, hm, hgt, PyFloat.lt_asymm _ _ hgt]
    · intro hlt
      unfold classifyOne
      rw [hn]
      simp [hv, hrelne, hloc, hm, hlt]

/-- Witness for C1: the totality-and-direction theorem applied to one
spread-basis trade against a single reference point. -/
theorem classify_trades_totality_and_direction_witness :
    (([(⟨100, .fin 70⟩ : MidPoint)].map MidPoint.timestamp_utc).Nodup) ∧
    ((∃ ls, classify_trades [(⟨100, .noneStr, "PU", .num 72, "BPS"⟩ : TradeRow)]
        [⟨100, .fin 70⟩] = .ok ls ∧
      ls.length = [(⟨100, .noneStr, "PU", .num 72, "BPS"⟩ : TradeRow)].length ∧
      ∀ l ∈ ls, l ∈ allowedLabels) ∧
    (∀ (r : TradeRow) (p : MidPoint) (nt : Option String) (v : PyFloat),
      normalize_dtcc_quote r = (some .spread, v, nt) → v.isna = false →
      locClosest (relevantWindow (sortByTs [⟨100, .fin 70⟩]) r.execution_timestamp_utc)
        r.execution_timestamp_utc = [p] →
      p.mid_price.isna = false →
      (PyFloat.lt p.mid_price v = true →
        classifyOne (sortByTs [⟨100, .fin 70⟩]) r = .ok "offer_side") ∧
      (PyFloat.lt v p.mid_price = true →
        classifyOne (sortByTs [⟨100, .fin 70⟩]) r = .ok "bid_side"))) :=
  ⟨by decide, classify_trades_totality_and_direction _ _ (by decide)⟩

/-- Counterexample for C1: two reference rows share the timestamp closest
to the trade, so `relevant.loc[idxmin]` is a two-row frame, and on line 94
of trade_classifier.py the truth test `if pd.isna(bberg_mid_spread):` is
applied to a Series — an uncaught `ValueError` escapes `classify_trades`
(the `try` that routes errors to `unclassifiable_comparison_error` only
starts at line 100).  The claim's "never raising an exception" fails. -/
theorem classify_trades_raises_on_duplicate_nearest :
    classify_trades [⟨110, .noneStr, "PU", .num 72, "BPS"⟩]
      [⟨100, .fin 70⟩, ⟨100, .fin 71⟩] =
      .error "ambiguous truth value of a Series" := by rfl

/-- C7: when the Bloomberg mids frame is empty, `classify_trades` labels
every trade of a non-empty trades frame `unclassifiable_no_mid` and
returns normally (trade_classifier.py lines 36-41). -/
theorem classify_trades_empty_reference (trades : List TradeRow) (h : trades ≠ []) :
    classify_trades trades [] = .ok (trades.map fun _ => "unclassifiable_no_mid") := by
  cases trades with
  | nil => exact absurd rfl h
  | cons a as => simp [classify_trades]

/-- Witness for C7 on a one-trade frame. -/
theorem classify_trades_empty_reference_witness :
    ([(⟨0, .noneStr, "PU", .num 70, "BPS"⟩ : TradeRow)] ≠ []) ∧
    classify_trades [⟨0, .noneStr, "PU", .num 70, "BPS"⟩] [] =
      .ok ([(⟨0, .noneStr, "PU", .num 70, "BPS"⟩ : TradeRow)].map
        fun _ => "unclassifiable_no_mid") :=
  ⟨by simp, classify_trades_empty_reference _ (by simp)⟩

/-- C4 (amended): the source has no negative-spread guard at all — no code
path of `classify_trades` produces a label `unclassifiable_negative_spread`
(the string does not occur in the repository); a trade whose spread is
negative proceeds to the ordinary comparison of lines 107-112. -/
theorem classify_trades_no_negative_spread_guard :
    (∀ (trades : List TradeRow) (bberg : List MidPoint) (ls : List String),
      classify_trades trades bberg = .ok ls →
      "unclassifiable_negative_spread" ∉ ls) ∧
    (∀ (sorted : List MidPoint) (r : TradeRow) (l : String),
      classifyOne sorted r = .ok l → l ≠ "unclassifiable_negative_spread") := by
  have hnot : "unclassifiable_negative_spread" ∉ allowedLabels := by decide
  constructor
  · intro trades bberg ls h hmem
    unfold classify_trades at h
    split at h
    · simp only [Except.ok.injEq] at h
      subst h
      simp at hmem
    · split at h
      · simp only [Except.ok.injEq] at h
        subst h
        rcases List.mem_map.mp hmem with ⟨r, -, hr⟩
        simp at hr
      · exact hnot (classifyLoop_ok_mem _ _ _ h _ hmem)
  · intro sorted r l h he
    subst he
    exact hnot (classifyOne_ok_mem sorted r _ h)

/-- Witness for C4: the label of a concrete classified trade is not
`unclassifiable_negative_spread`. -/
theorem classify_trades_no_negative_spread_guard_witness :
    "unclassifiable_negative_spread" ∉ ["offer_side"] :=
  classify_trades_no_negative_spread_guard.1
    [⟨100, .noneStr, "PU", .num 72, "BPS"⟩] [⟨100, .fin 70⟩] ["offer_side"] (by rfl)

/-- Counterexample for C4: a trade with converted spread -5 against a
reference mid of 70 is labeled `bid_side` by the ordinary comparison, not
`unclassifiable_negative_spread` as the claim states. -/
theorem negative_spread_trade_classified_bid_side :
    classify_trades [⟨100, .noneStr, "PU", .num (-5), "DECIMAL"⟩]
      [⟨100, .fin 70⟩] = .ok ["bid_side"] := by rfl

/-- C3 (amended): the located reference point is the first row attaining
the minimal absolute time distance to the trade among the rows inside the
closed ±tolerance window — a nearest-in-window selection, not an as-of
lookup, so the located point may lie strictly after the trade's execution
time (trade_classifier.py lines 62-90). -/
theorem reference_selection_nearest_in_window
    (sorted : List MidPoint) (t : ℤ)
    (h : relevantWindow sorted t ≠ []) :
    ∃ p, firstMinPoint t (relevantWindow sorted t) = some p ∧
      p ∈ relevantWindow sorted t ∧
      (∀ q ∈ relevantWindow sorted t,
        |p.timestamp_utc - t| ≤ |q.timestamp_utc - t|) ∧
      t - LATENCY_FILTER_SECONDS ≤ p.timestamp_utc ∧
      p.timestamp_utc ≤ t + LATENCY_FILTER_SECONDS ∧
      locClosest (relevantWindow sorted t) t =
        (relevantWindow sorted t).filter
          (fun q => decide (q.timestamp_utc = p.timestamp_utc)) := by
  obtain ⟨p, hp, hmem, hmin⟩ := firstMinPoint_spec t (relevantWindow sorted t) h
  have hwin := List.mem_filter.mp hmem
  simp only [Bool.and_eq_true, decide_eq_true_eq] at hwin
  exact ⟨p, hp, hmem, hmin, hwin.2.1, hwin.2.2, by simp [locClosest, hp]⟩

/-- Witness for C3's amended selection characterization on a concrete
window. -/
theorem reference_selection_nearest_in_window_witness :
    (relevantWindow [⟨95, .fin 69⟩, ⟨105, .fin 70⟩] 100 ≠ []) ∧
    (∃ p, firstMinPoint 100 (relevantWindow [⟨95, .fin 69⟩, ⟨105, .fin 70⟩] 100) = some p ∧
      p ∈ relevantWindow [⟨95, .fin 69⟩, ⟨105, .fin 70⟩] 100 ∧
      (∀ q ∈ relevantWindow [⟨95, .fin 69⟩, ⟨105, .fin 70⟩] 100,
        |p.timestamp_utc - 100| ≤ |q.timestamp_utc - 100|) ∧
      100 - LATENCY_FILTER_SECONDS ≤ p.timestamp_utc ∧
      p.timestamp_utc ≤ 100 + LATENCY_FILTER_SECONDS ∧
      locClosest (relevantWindow [⟨95, .fin 69⟩, ⟨105, .fin 70⟩] 100) 100 =
        (relevantWindow [⟨95, .fin 69⟩, ⟨105, .fin 70⟩] 100).filter
          (fun q => decide (q.timestamp_utc = p.timestamp_utc))) :=
  ⟨by decide, reference_selection_nearest_in_window _ 100 (by decide)⟩

/-- Counterexample for C3: the only reference point sits 5 seconds AFTER
the trade's execution time; an as-of lookup would find no point at or
before the trade and yield `unclassifiable_stale_mid`, but the code
classifies the trade against the later point (here spread 72 > mid 70
gives `offer_side`). -/
theorem trade_classified_against_later_point :
    classify_trades [⟨100, .noneStr, "PU", .num 72, "BPS"⟩]
      [⟨105, .fin 70⟩] = .ok ["offer_side"] := by rfl

theorem sortByTs_single (p : MidPoint) : sortByTs [p] = [p] := rfl

theorem classify_trades_single (r : TradeRow) (p : MidPoint) :
    classify_trades [r] [p] =
      match classifyOne [p] r with
      | .ok l => .ok [l]
      | .error e => .error e := by
  rcases h : classifyOne [p] r with e | l <;>
    simp [classify_trades, classifyLoop, sortByTs, List.insertionSort, h]

theorem classifyOne_single_spread (r : TradeRow) (v m : ℚ) (nt : Option String) (ts0 : ℤ)
    (hn : normalize_dtcc_quote r = (some .spread, .fin v, nt))
    (h1 : r.execution_timestamp_utc - LATENCY_FILTER_SECONDS ≤ ts0)
    (h2 : ts0 ≤ r.execution_timestamp_utc + LATENCY_FILTER_SECONDS) :
    classifyOne [⟨ts0, .fin m⟩] r =
      .ok (if v < m then "bid_side" else if m < v then "offer_side" else "mid_market") := by
  have hwin : relevantWindow [⟨ts0, .fin m⟩] r.execution_timestamp_utc = [⟨ts0, .fin m⟩] := by
    simp [relevantWindow, List.filter, h1, h2]
  unfold classifyOne
  rw [hn]
  simp [hwin, locClosest, firstMinPoint, PyFloat.isna, PyFloat.lt]
  split_ifs <;> simp_all

theorem classifyOne_single_stale (r : TradeRow) (ts0 : ℤ) (c : PyFloat)
    (hn : (normalize_dtcc_quote r).1.isNone = false)
    (hv : (normalize_dtcc_quote r).2.1.isna = false)
    (hout : ts0 < r.execution_timestamp_utc - LATENCY_FILTER_SECONDS ∨
      r.execution_timestamp_utc + LATENCY_FILTER_SECONDS < ts0) :
    classifyOne [⟨ts0, c⟩] r = .ok "unclassifiable_stale_mid" := by
  have hwin : relevantWindow [⟨ts0, c⟩] r.execution_timestamp_utc = [] := by
    simp only [relevantWindow, List.filter_eq_nil]
    intro p hp
    simp only [List.mem_singleton] at hp
    subst hp
    simp only [Bool.and_eq_true, decide_eq_true_eq, not_and]
    omega
  unfold classifyOne
  rw [show (normalize_dtcc_quote r) = ((normalize_dtcc_quote r).1,
    (normalize_dtcc_quote r).2.1, (normalize_dtcc_quote r).2.2) from rfl]
  simp [hn, hv, hwin]

/-- C5: the latency window is inclusive at its boundary and the tie goes
to `mid_market`: a reference point exactly `LATENCY_FILTER_SECONDS` (= 30)
seconds from the trade is used for classification, one second farther the
trade is `unclassifiable_stale_mid`, and a trade spread exactly equal to
the reference mid spread classifies `mid_market`
(trade_classifier.py lines 64-80 and 107-112). -/
theorem boundary_inclusive_latency_and_tie (r : TradeRow) (v m : ℚ) (nt : Option String)
    (hn : normalize_dtcc_quote r = (some .spread, .fin v, nt)) :
    LATENCY_FILTER_SECONDS = 30 ∧
    (∃ l, classify_trades [r]
        [⟨r.execution_timestamp_utc - LATENCY_FILTER_SECONDS, .fin m⟩] = .ok [l] ∧
      l ∈ (["bid_side", "offer_side", "mid_market"] : List String)) ∧
    classify_trades [r]
        [⟨r.execution_timestamp_utc - (LATENCY_FILTER_SECONDS + 1), .fin m⟩] =
      .ok ["unclassifiable_stale_mid"] ∧
    (v = m → classify_trades [r]
        [⟨r.execution_timestamp_utc - LATENCY_FILTER_SECONDS, .fin m⟩] =
      .ok ["mid_market"]) := by
  have hone := classifyOne_single_spread r v m nt
    (r.execution_timestamp_utc - LATENCY_FILTER_SECONDS) hn (le_refl _)
    (by simp [LATENCY_FILTER_SECONDS]; omega)
  refine ⟨rfl, ?_, ?_, ?_⟩
  · rw [classify_trades_single, hone]
    rcases lt_trichotomy v m with hvm | hvm | hvm
    · exact ⟨"bid_side", by simp [hvm], by simp⟩
    · exact ⟨"mid_market", by simp [hvm], by simp⟩
    · exact ⟨"offer_side", by simp [hvm, not_lt_of_gt hvm], by simp⟩
  · rw [classify_trades_single, classifyOne_single_stale r _ (.fin m)
      (by simp [hn]) (by simp [hn, PyFloat.isna]) (by left; simp only [LATENCY_FILTER_SECONDS]; omega)]
  · intro he
    subst he
    rw [classify_trades_single, hone]
    simp

/-- Witness for C5 with a concrete spread-basis trade (spread 70, mid 70). -/
theorem boundary_inclusive_latency_and_tie_witness :
    (normalize_dtcc_quote (⟨1000, .noneStr, "PU", .num 70, "BPS"⟩ : TradeRow) =
      (some .spread, .fin 70, some "BPS")) ∧
    (LATENCY_FILTER_SECONDS = 30 ∧
    (∃ l, classify_trades [(⟨1000, .noneStr, "PU", .num 70, "BPS"⟩ : TradeRow)]
        [⟨(1000 : ℤ) - LATENCY_FILTER_SECONDS, .fin 70⟩] = .ok [l] ∧
      l ∈ (["bid_side", "offer_side", "mid_market"] : List String)) ∧
    classify_trades [(⟨1000, .noneStr, "PU", .num 70, "BPS"⟩ : TradeRow)]
        [⟨(1000 : ℤ) - (LATENCY_FILTER_SECONDS + 1), .fin 70⟩] =
      .ok ["unclassifiable_stale_mid"] ∧
    ((70 : ℚ) = 70 → classify_trades [(⟨1000, .noneStr, "PU", .num 70, "BPS"⟩ : TradeRow)]
        [⟨(1000 : ℤ) - LATENCY_FILTER_SECONDS, .fin 70⟩] =
      .ok ["mid_market"])) :=
  ⟨by rfl, boundary_inclusive_latency_and_tie _ 70 70 (some "BPS") (by rfl)⟩

/-- C6: `normalize_dtcc_quote` applies spread-over-price precedence: a
non-empty, parseable `spread_value` gives basis `spread`; otherwise (empty
or unparseable spread — the parse failure falls through) a non-empty,
parseable `price_value` gives basis `price`; otherwise the result is
`(None, NaN, None)` (economic_conversions.py lines 84-137). -/
theorem normalize_dtcc_quote_precedence (row : TradeRow) :
    (∀ v, row.spread_value.nonEmpty = true → row.spread_value.tryFloat = some v →
      normalize_dtcc_quote row = (some .spread, v, some (strUpper row.spread_unit))) ∧
    ((row.spread_value.nonEmpty = false ∨ row.spread_value.tryFloat = none) →
      ∀ v, row.price_value.nonEmpty = true → row.price_value.tryFloat = some v →
        normalize_dtcc_quote row = (some .price, v, some (strUpper row.price_unit))) ∧
    ((row.spread_value.nonEmpty = false ∨ row.spread_value.tryFloat = none) →
      (row.price_value.nonEmpty = false ∨ row.price_value.tryFloat = none) →
      normalize_dtcc_quote row = (none, .nan, none)) := by
  refine ⟨?_, ?_, ?_⟩
  · intro v h1 h2
    simp [normalize_dtcc_quote, h1, h2]
  · rintro (h | h) v h1 h2 <;> simp [normalize_dtcc_quote, h, h1, h2]
  · rintro (h | h) (h2 | h2) <;> simp [normalize_dtcc_quote, h, h2]

/-- Witness for C6: an unparseable spread falls through to a parseable
price, yielding basis `price`. -/
theorem normalize_dtcc_quote_precedence_witness :
    ((RawField.junk "x").tryFloat = none) ∧
    ((RawField.num 3).nonEmpty = true) ∧
    normalize_dtcc_quote (⟨0, .num 3, "PN", .junk "x", "SN"⟩ : TradeRow) =
      (some .price, .fin 3, some (strUpper "PN")) :=
  ⟨rfl, rfl,
    (normalize_dtcc_quote_precedence
      (⟨0, .num 3, "PN", .junk "x", "SN"⟩ : TradeRow)).2.1
      (Or.inr rfl) (.fin 3) rfl rfl⟩

/-- C9: the placeholder converter `convert_spread_to_price` returns NaN on
every non-None input, so every price-basis trade that reaches the
comparison step (usable quote, uniquely located in-window reference point
with a non-NaN mid) is labeled `unclassifiable_conversion_failed`, and no
price-basis trade ever receives a `bid_side` / `offer_side` / `mid_market`
label (economic_conversions.py lines 13-48, trade_classifier.py 114-126). -/
theorem convert_spread_to_price_always_nan :
    (∀ v : PyFloat, convert_spread_to_price (some v) = some .nan) ∧
    (∀ (sorted : List MidPoint) (r : TradeRow) (v : PyFloat) (nt : Option String)
      (p : MidPoint),
      normalize_dtcc_quote r = (some .price, v, nt) → v.isna = false →
      locClosest (relevantWindow sorted r.execution_timestamp_utc)
        r.execution_timestamp_utc = [p] →
      p.mid_price.isna = false →
      classifyOne sorted r = .ok "unclassifiable_conversion_failed") ∧
    (∀ (sorted : List MidPoint) (r : TradeRow) (v : PyFloat) (nt : Option String)
      (l : String),
      normalize_dtcc_quote r = (some .price, v, nt) →
      classifyOne sorted r = .ok l →
      l ∉ (["bid_side", "offer_side", "mid_market"] : List String)) := by
  refine ⟨fun v => rfl, ?_, ?_⟩
  · intro sorted r v nt p hn hv hloc hm
    have hrelne : ¬(relevantWindow sorted r.execution_timestamp_utc).isEmpty := by
      intro h0
      rw [List.isEmpty_iff.mp h0] at hloc
      simp [locClosest, firstMinPoint] at hloc
    unfold classifyOne
    rw [hn]
    simp [hv, hm, hrelne, hloc, convert_spread_to_price, optIsna]
    intro hcontra
    exact absurd hcontra (by decide)
  · intro sorted r v nt l hn hl
    unfold classifyOne at hl
    rw [hn] at hl
    repeat' split at hl
    all_goals try (cases hl; decide)
    all_goals simp_all [convert_spread_to_price, optIsna, PyFloat.isna]

/-- Witness for C9: a concrete price-basis trade with an in-window non-NaN
reference mid is labeled `unclassifiable_conversion_failed`. -/
theorem convert_spread_to_price_always_nan_witness :
    (locClosest (relevantWindow [(⟨0, .fin 70⟩ : MidPoint)] 0) 0 = [⟨0, .fin 70⟩]) ∧
    classifyOne [⟨0, .fin 70⟩] (⟨0, .num 2, "PN", .junk "s", "SN"⟩ : TradeRow) =
      .ok "unclassifiable_conversion_failed" :=
  ⟨by decide, convert_spread_to_price_always_nan.2.1 [(⟨0, .fin 70⟩ : MidPoint)]
    (⟨0, .num 2, "PN", .junk "s", "SN"⟩ : TradeRow) (.fin 2)
    (some (strUpper "PN")) (⟨0, .fin 70⟩ : MidPoint)
    (by rfl) (by rfl) (by decide) (by rfl)⟩

/-- C10: the strings "nan" and "inf" are accepted by the `float(...)` call
of `normalize_dtcc_quote`, which then returns basis `spread` with a NaN
(resp. infinite) quote value instead of falling through to price or
returning basis None; `classify_trades` routes the NaN case to
`unclassifiable_bad_dtcc_quote` through its separate `pd.isna` check
(economic_conversions.py lines 98-116, trade_classifier.py 55-60). -/
theorem nan_or_inf_spread_string (r : TradeRow) (sorted : List MidPoint) :
    (r.spread_value = .nanStr →
      normalize_dtcc_quote r = (some .spread, .nan, some (strUpper r.spread_unit)) ∧
      classifyOne sorted r = .ok "unclassifiable_bad_dtcc_quote") ∧
    (r.spread_value = .infStr →
      normalize_dtcc_quote r = (some .spread, .pinf, some (strUpper r.spread_unit))) := by
  constructor
  · intro h
    have hn : normalize_dtcc_quote r =
        (some .spread, .nan, some (strUpper r.spread_unit)) := by
      simp [normalize_dtcc_quote, h, RawField.nonEmpty, RawField.tryFloat]
    refine ⟨hn, ?_⟩
    unfold classifyOne
    rw [hn]
    simp [PyFloat.isna]
  · intro h
    simp [normalize_dtcc_quote, h, RawField.nonEmpty, RawField.tryFloat]

/-- Witness for C10 at a concrete row whose spread field reads "nan" while
a parseable price is present. -/
theorem nan_or_inf_spread_string_witness :
    ((⟨0, .num 5, "PN", .nanStr, "BPS"⟩ : TradeRow).spread_value = .nanStr) ∧
    (normalize_dtcc_quote (⟨0, .num 5, "PN", .nanStr, "BPS"⟩ : TradeRow) =
      (some .spread, .nan, some (strUpper "BPS")) ∧
    classifyOne [⟨0, .fin 1⟩] (⟨0, .num 5, "PN", .nanStr, "BPS"⟩ : TradeRow) =
      .ok "unclassifiable_bad_dtcc_quote") :=
  ⟨rfl, (nan_or_inf_spread_string _ _).1 rfl⟩

theorem mapColDF_noop (df : DFrame) (c : String) (f : Cell → Cell)
    (h : colIdx df.cols c = none) : mapColDF df c f = df := by
  unfold mapColDF
  rw [h]

theorem stageTimestamp_noop (df : DFrame)
    (h : colIdx df.cols "Execution Timestamp" = none) : stageTimestamp df = df := by
  unfold stageTimestamp
  rw [h]

theorem stageAmend_noop (df : DFrame)
    (h : "Original Dissemination ID" ∉ df.cols) : stageAmend df = df := by
  unfold stageAmend
  rw [if_neg]
  simp [h]

theorem stageNumeric_noop (df : DFrame)
    (h1 : colIdx df.cols "notional_amount" = none)
    (h2 : colIdx df.cols "spread_value" = none) : stageNumeric df = df := by
  unfold stageNumeric
  rw [mapColDF_noop df _ _ h1, mapColDF_noop df _ _ h2, mapColDF_noop df _ _ h2]

theorem preprocess_on_snake (rows : List (List Cell)) (hne : rows ≠ []) :
    preprocess_dtcc_trades ⟨snakeCols, rows⟩ =
      ⟨survivorCols,
        rows.map (fun r =>
          (["Product Name", "Price Notation", "Action Type", "Event Type",
            "Unique Product Identifier"]).map
            (getColCell (renameStage snakeCols) r))⟩ := by
  have hne2 : rows.isEmpty = false := by
    cases rows
    · exact absurd rfl hne
    · rfl
  simp only [preprocess_dtcc_trades]
  rw [hne2, show snakeCols.isEmpty = false from rfl]
  simp only [Bool.or_self, Bool.false_eq_true, if_false]
  rw [stageTimestamp_noop ⟨renameStage snakeCols, rows⟩
    (by show colIdx (renameStage snakeCols) "Execution Timestamp" = none; decide)]
  rw [stageAmend_noop ⟨renameStage snakeCols, rows⟩
    (by show "Original Dissemination ID" ∉ renameStage snakeCols; decide)]
  simp only [stageSelect]
  rw [show (column_map_to_final.map Prod.fst).filter
      (fun c => decide (c ∈ (⟨renameStage snakeCols, rows⟩ : DFrame).cols)) =
      ["Product Name", "Price Notation", "Action Type", "Event Type",
       "Unique Product Identifier"] from by
    show (column_map_to_final.map Prod.fst).filter
      (fun c => decide (c ∈ renameStage snakeCols)) = _
    decide]
  rw [show (["Product Name", "Price Notation", "Action Type", "Event Type",
    "Unique Product Identifier"]).map mapDst = survivorCols from by decide]
  rw [stageNumeric_noop _
    (by show colIdx survivorCols "notional_amount" = none; decide)
    (by show colIdx survivorCols "spread_value" = none; decide)]

/-- C2 (code bug): the amendment-resolution branch of
`preprocess_dtcc_trades` is guarded by the literal column name
"Original Dissemination ID" (dtcc_fetcher.py line 233), which the rename
pipeline can never produce — `capitalize()` turns the trailing word into
"Id" / "Identifier" — so the branch is always skipped.  On a two-report
chain whose terminal report is a CANCEL, both reports (the CANCEL
included) reach the output instead of none. -/
theorem cancel_terminal_chain_not_excluded :
    ("Original Dissemination ID" ∉ renameStage stdRawCols) ∧
    (preprocess_dtcc_trades dfCancelChain).rows.length = 2 ∧
    (preprocess_dtcc_trades dfCancelChain).cols = snakeCols ∧
    ((preprocess_dtcc_trades dfCancelChain).rows.map
      (fun r => getColCell snakeCols r "action_type")) =
      [Cell.str "NEW", Cell.str "CANCEL"] := by decide

/-- C8 (amended): `preprocess_dtcc_trades` is not idempotent.  Its output
carries the lower-snake column names, which the second application's
Title-Case rename maps to names like "Execution Timestamp Utc" that the
selection dictionary does not know, so re-applying the function to any
non-empty resolved frame keeps only the five columns `survivorCols` and
drops the timestamp, identifier, price, spread and notional fields — it
does not return its input unchanged. -/
theorem preprocess_not_idempotent :
    (∀ rows : List (List Cell), rows ≠ [] →
      (preprocess_dtcc_trades ⟨snakeCols, rows⟩).cols = survivorCols ∧
      (preprocess_dtcc_trades ⟨snakeCols, rows⟩).rows.length = rows.length) ∧
    dfResolvedOnce.cols = snakeCols ∧
    preprocess_dtcc_trades dfResolvedOnce ≠ dfResolvedOnce := by
  refine ⟨?_, by decide, by decide⟩
  intro rows hne
  rw [preprocess_on_snake rows hne]
  exact ⟨rfl, by simp⟩

/-- Witness for C8's amended theorem on a one-row resolved frame. -/
theorem preprocess_not_idempotent_witness :
    (([[Cell.na]] : List (List Cell)) ≠ []) ∧
    ((preprocess_dtcc_trades ⟨snakeCols, [[Cell.na]]⟩).cols = survivorCols ∧
     (preprocess_dtcc_trades ⟨snakeCols, [[Cell.na]]⟩).rows.length =
       ([[Cell.na]] : List (List Cell)).length) :=
  ⟨by simp, preprocess_not_idempotent.1 [[Cell.na]] (by simp)⟩

/-- Counterexample for C8: `dfResolvedOnce` is itself an output of
`preprocess_dtcc_trades` (a resolved single-report chain), and applying
the function to it does not return it unchanged. -/
theorem preprocess_second_application_changes_output :
    preprocess_dtcc_trades dfResolvedOnce ≠ dfResolvedOnce := by decide
